import Mathlib

/-!
Verification of the contact-manager assistant (`exercise.py`).

The Python source is shallowly embedded: each class and function of the
data-model / birthday-scheduling core is translated into an executable
Lean definition, and the specification's claims are settled as theorems
about those definitions.  Machine-level concerns (CPython `datetime`
internals) are modelled by explicit calendar arithmetic on `Int`.
-/

namespace Assistant

/-! ## Calendar arithmetic (model of CPython `datetime.date`)

`datetime` represents a proleptic Gregorian calendar date with
`MINYEAR = 1` and `MAXYEAR = 9999`.  Day numbers are counted from the
epoch 1970-01-01 (day 0) using the standard civil-calendar conversion;
`weekdayD` matches Python's `date.weekday()` (Monday = 0 .. Sunday = 6).
-/

/-- Gregorian leap-year test, as used by `datetime` / `calendar.isleap`. -/
def leapB (y : Int) : Bool :=
  y % 4 == 0 && (y % 100 != 0 || y % 400 == 0)

/-- Days in a month of a given year (`datetime`'s `_days_in_month`);
    0 for a month outside 1..12 (such a month is rejected anyway). -/
def daysInMonth (y m : Int) : Int :=
  if m = 1 then 31
  else if m = 2 then (if leapB y then 29 else 28)
  else if m = 3 then 31
  else if m = 4 then 30
  else if m = 5 then 31
  else if m = 6 then 30
  else if m = 7 then 31
  else if m = 8 then 31
  else if m = 9 then 30
  else if m = 10 then 31
  else if m = 11 then 30
  else if m = 12 then 31
  else 0

/-- The argument check performed by the `datetime.date` constructor
    (and hence by `date.replace`): year in `MINYEAR..MAXYEAR`, month in
    1..12, day in 1..days-in-month. -/
def validDate (y m d : Int) : Bool :=
  1 ≤ y && y ≤ 9999 && 1 ≤ m && m ≤ 12 && 1 ≤ d && d ≤ daysInMonth y m

/-- A calendar date `(year, month, day)`. -/
structure Date where
  year : Int
  month : Int
  day : Int
deriving DecidableEq, Repr

/-- `datetime.date(y, m, d)` — returns `none` where the constructor
    raises `ValueError`. -/
def mkDate (y m d : Int) : Option Date :=
  if validDate y m d then some ⟨y, m, d⟩ else none

/-- Day number of a civil date counted from 1970-01-01 (standard
    `days_from_civil` conversion; total on `Int`, used on valid dates). -/
def daysFromCivil (dt : Date) : Int :=
  let y : Int := if dt.month ≤ 2 then dt.year - 1 else dt.year
  let era : Int := y / 400
  let yoe : Int := y - era * 400
  let mp : Int := if dt.month > 2 then dt.month - 3 else dt.month + 9
  let doy : Int := (153 * mp + 2) / 5 + dt.day - 1
  let doe : Int := yoe * 365 + yoe / 4 - yoe / 100 + doy
  era * 146097 + doe - 719468

/-- Inverse of `daysFromCivil` (standard `civil_from_days` conversion). -/
def civilFromDays (z0 : Int) : Date :=
  let z : Int := z0 + 719468
  let era : Int := z / 146097
  let doe : Int := z - era * 146097
  let yoe : Int := (doe - doe / 1460 + doe / 36524 - doe / 146096) / 365
  let y : Int := yoe + era * 400
  let doy : Int := doe - (365 * yoe + yoe / 4 - yoe / 100)
  let mp : Int := (5 * doy + 2) / 153
  let d : Int := doy - (153 * mp + 2) / 5 + 1
  let m : Int := if mp < 10 then mp + 3 else mp - 9
  ⟨if m ≤ 2 then y + 1 else y, m, d⟩

/-- `date + timedelta(days = n)`. -/
def addDays (dt : Date) (n : Int) : Date :=
  civilFromDays (daysFromCivil dt + n)

/-- Python's `date.weekday()`: Monday = 0 .. Sunday = 6
    (1970-01-01 was a Thursday, i.e. weekday 3). -/
def weekdayD (dt : Date) : Int :=
  (daysFromCivil dt + 3) % 7

/-- Zero-padded two-digit field of `strftime` (`%d`, `%m`). -/
def pad2 (n : Int) : String :=
  (if n < 10 then "0" else "") ++ toString n

/-- Four-digit year field of `strftime` (`%Y`, zero-padded per the
    Python format-code table). -/
def pad4 (n : Int) : String :=
  (if n < 10 then "000" else if n < 100 then "00" else if n < 1000 then "0" else "")
    ++ toString n

/-- `next_birthday.strftime("%d.%m.%Y")`. -/
def fmtDate (dt : Date) : String :=
  pad2 dt.day ++ "." ++ pad2 dt.month ++ "." ++ pad4 dt.year

/-! ## Python string predicates -/

/-- Model of Python's per-character `str.isdigit` test.  Besides the
    ASCII digits `0-9` it accepts other Unicode digit characters; the
    ranges listed here (Arabic-Indic U+0660-0669, Extended Arabic-Indic
    U+06F0-06F9, Devanagari U+0966-096F) are decimal-digit (`Nd`)
    characters for which CPython's `str.isdigit` returns `True`. -/
def pyIsDigit (c : Char) : Bool :=
  ('0' ≤ c && c ≤ '9')
  || (0x660 ≤ c.toNat && c.toNat ≤ 0x669)
  || (0x6F0 ≤ c.toNat && c.toNat ≤ 0x6F9)
  || (0x966 ≤ c.toNat && c.toNat ≤ 0x96F)

/-- Python `s.isdigit()`: non-empty and every character a digit. -/
def pyIsDigitStr (s : String) : Bool :=
  !s.toList.isEmpty && s.toList.all pyIsDigit

/-- `Phone.is_valid_phone`: `phone.isdigit() and len(phone) == 10`. -/
def isValidPhone (s : String) : Bool :=
  pyIsDigitStr s && s.toList.length == 10

/-! ## Errors

The exceptions reachable inside the command handlers are all
`ValueError` (phone/birthday validation, `edit_phone` not-found, tuple
unpacking) or `IndexError` (`args[0]` on an empty list); both types are
caught by the `input_error` decorator's
`except (KeyError, ValueError, IndexError)` clause.  `pyStr` is Python's
`str(e)` on these exception values. -/
inductive PyErr where
  | valueError (msg : String)
  | indexError
deriving DecidableEq, Repr

/-- `str(e)` for the modelled exceptions. -/
def pyStr : PyErr → String
  | .valueError m => m
  | .indexError => "list index out of range"

/-- Result of a Python expression that may raise. -/
abbrev PyR (α : Type) := Except PyErr α

/-- Message of the `ValueError` raised by `Phone.__init__`. -/
def phoneErrMsg : String :=
  "Invalid phone number format. Phone should consist of 10 digits."

/-- Message of the `ValueError` raised by `Birthday.__init__`. -/
def birthdayErrMsg : String := "Invalid date format. Use DD.MM.YYYY"

/-- Message of the `ValueError` raised by `Record.edit_phone`. -/
def notFoundMsg : String := "Phone number not found"

/-- Message of the `ValueError` raised by `date.replace` /
    `datetime.replace` when the day does not exist in the target
    month/year (e.g. Feb 29 of a non-leap year). -/
def dayRangeMsg : String := "day is out of range for month"

/-- `Phone(value)`: validate, and on success store the raw string
    unmodified. -/
def mkPhone (s : String) : PyR String :=
  if isValidPhone s then .ok s else .error (.valueError phoneErrMsg)

/-! ## `strptime(value, "%d.%m.%Y")`

CPython's `_strptime` compiles the format into the anchored regex
`(3[01]|[12]\d|0[1-9]|[1-9])\.(1[0-2]|0[1-9]|[1-9])\.(\d\d\d\d)` and
requires the whole string to match; the matched fields are converted
with `int()` and passed to the `datetime` constructor, which re-checks
that the triple is a real calendar date.  Because every field matches
only digit characters while the separators are literal dots, a string
matches exactly when splitting it at the dots yields three fields each
matching its field pattern.  (Python's `\d` and `int()` additionally
accept non-ASCII Unicode decimal digits; the model is stated for the
ASCII digits, which only narrows the accepted set on non-ASCII input.)
-/

/-- Split a character list at every `'.'` (every dot separates,
    empty fields preserved). -/
def splitDots : List Char → List (List Char)
  | [] => [[]]
  | c :: cs =>
    if c = '.' then [] :: splitDots cs
    else
      match splitDots cs with
      | r :: rs => (c :: r) :: rs
      | [] => [[c]]

/-- The day field pattern `3[01]|[12]\d|0[1-9]|[1-9]`, restricted to
    ASCII digits: one digit 1-9, or two digits denoting 1..31 (not
    `00`).  CPython's `\d` also matches non-ASCII Unicode decimal
    digits (so the program additionally accepts e.g. a day field
    `2٩`); theorems characterizing acceptance are therefore stated
    under an all-ASCII hypothesis, where this predicate is exact. -/
def dayFieldOk : List Char → Bool
  | [a] => '1' ≤ a && a ≤ '9'
  | [a, b] =>
    (a = '3' && (b = '0' || b = '1'))
    || ((a = '1' || a = '2') && ('0' ≤ b && b ≤ '9'))
    || (a = '0' && ('1' ≤ b && b ≤ '9'))
  | _ => false

/-- The month field pattern `1[0-2]|0[1-9]|[1-9]`, restricted to ASCII
    digits (see `dayFieldOk` for the Unicode caveat): one digit 1-9,
    or two digits denoting 1..12 (not `00`). -/
def monthFieldOk : List Char → Bool
  | [a] => '1' ≤ a && a ≤ '9'
  | [a, b] =>
    (a = '1' && (b = '0' || b = '1' || b = '2'))
    || (a = '0' && ('1' ≤ b && b ≤ '9'))
  | _ => false

/-- The year field pattern `\d\d\d\d`, restricted to ASCII digits (see
    `dayFieldOk` for the Unicode caveat — the program also accepts
    e.g. the year field `٢٠٢٤`): exactly four digits. -/
def yearFieldOk (f : List Char) : Bool :=
  f.length == 4 && f.all (fun c => '0' ≤ c && c ≤ '9')

/-- Numeric value of a digit string (Python `int()` on the field). -/
def digitsVal (f : List Char) : Int :=
  f.foldl (fun a c => a * 10 + ((c.toNat : Int) - 48)) 0

/-- The parsed result of `datetime.strptime(value, "%d.%m.%Y")` on a
    character list: day/month/year, or `none` where strptime raises. -/
def parseBirthdayL (cs : List Char) : Option (Int × Int × Int) :=
  match splitDots cs with
  | [df, mf, yf] =>
    if dayFieldOk df && monthFieldOk mf && yearFieldOk yf then
      let d := digitsVal df
      let m := digitsVal mf
      let y := digitsVal yf
      if validDate y m d then some (d, m, y) else none
    else none
  | _ => none

/-- `datetime.strptime(value, "%d.%m.%Y")` on a string. -/
def parseBirthday (s : String) : Option (Int × Int × Int) :=
  parseBirthdayL s.toList

/-- `Birthday.__init__` succeeds exactly when strptime succeeds. -/
def birthdayOk (s : String) : Bool :=
  (parseBirthday s).isSome

/-- The stored `Birthday` field value: the original validated string
    (`self.value = value`). -/
structure Birthday where
  value : String
deriving DecidableEq, Repr

/-- `Birthday(value)`: validate via strptime; on success store the raw
    string, otherwise raise `ValueError("Invalid date format. ...")`. -/
def mkBirthday (s : String) : PyR Birthday :=
  if birthdayOk s then .ok ⟨s⟩ else .error (.valueError birthdayErrMsg)

/-! ## `Record` -/

/-- One contact: `self.name = Name(name)` (stored as-is),
    `self.phones = []` (list of stored `Phone` values),
    `self.birthday = None`. -/
structure Record where
  name : String
  phones : List String
  birthday : Option Birthday
deriving DecidableEq, Repr

/-- `Record.__init__(name)`. -/
def mkRecord (name : String) : Record :=
  { name := name, phones := [], birthday := none }

/-- `Record.add_phone`: `self.phones.append(Phone(phone))` — the
    `Phone` constructor runs (and may raise) before the append, so on
    failure the record is returned unchanged. -/
def addPhone (r : Record) (p : String) : PyR Unit × Record :=
  match mkPhone p with
  | .ok v => (.ok (), { r with phones := r.phones ++ [v] })
  | .error e => (.error e, r)

/-- `Record.edit_phone` on the phone list: scan for the first entry
    equal to `old`; replace it with `Phone(new)` (constructed only once
    a match is found); raise `ValueError("Phone number not found")` if
    the scan completes without a match. -/
def editPhoneList : List String → String → String → PyR (List String)
  | [], _, _ => .error (.valueError notFoundMsg)
  | p :: ps, old, nw =>
    if p = old then
      match mkPhone nw with
      | .ok v => .ok (v :: ps)
      | .error e => .error e
    else
      match editPhoneList ps old nw with
      | .ok ps' => .ok (p :: ps')
      | .error e => .error e

/-- `Record.edit_phone(old, new)`; on failure the record is unchanged
    (the in-place assignment never ran). -/
def editPhone (r : Record) (old nw : String) : PyR Unit × Record :=
  match editPhoneList r.phones old nw with
  | .ok ps => (.ok (), { r with phones := ps })
  | .error e => (.error e, r)

/-- `Record.add_birthday`: `self.birthday = Birthday(birthday)`. -/
def addBirthday (r : Record) (s : String) : PyR Unit × Record :=
  match mkBirthday s with
  | .ok b => (.ok (), { r with birthday := some b })
  | .error e => (.error e, r)

/-! ## `datetime.today()` and the birthday computations -/

/-- Microseconds per day (`timedelta` resolution). -/
def usPerDay : Int := 86400000000

/-- The value of `datetime.today()`: the current calendar date plus the
    time of day, modelled as whole microseconds past midnight. -/
structure Today where
  date : Date
  frac : Int
deriving DecidableEq, Repr

/-- The comparison `next_birthday < today`, where `next_birthday` is a
    `datetime` at midnight of date `nb`: lexicographic on
    (year, month, day, time-of-day). -/
def dtLtToday (nb : Date) (t : Today) : Bool :=
  nb.year < t.date.year
  || (nb.year == t.date.year
      && (nb.month < t.date.month
          || (nb.month == t.date.month
              && (nb.day < t.date.day
                  || (nb.day == t.date.day && 0 < t.frac)))))

/-- `(next_birthday - today).days` where `next_birthday` is at midnight
    and the dates are `delta` days apart: `timedelta` normalisation
    floors towards minus infinity. -/
def tdDays (delta : Int) (frac : Int) : Int :=
  (delta * usPerDay - frac) / usPerDay

/-- Lines 68‒70 / 95‒97 of the source (computed twice there):
    `next_birthday = birthday_date.replace(year=today.year)`, advanced
    to next year when strictly before `today`.  `replace` re-validates
    the day against the target year and raises
    `ValueError("day is out of range for month")` when it does not
    exist (Feb 29 of a non-leap year). -/
def nextOcc (bm bd : Int) (t : Today) : PyR Date :=
  match mkDate t.date.year bm bd with
  | none => .error (.valueError dayRangeMsg)
  | some nb =>
    if dtLtToday nb t then
      match mkDate (t.date.year + 1) bm bd with
      | none => .error (.valueError dayRangeMsg)
      | some nb2 => .ok nb2
    else .ok nb

/-- `Record.get_days_to_birthday`: `none` result when no birthday is
    set; otherwise re-parse the stored string, compute the next
    occurrence and return the floored day difference to `today`. -/
def getDaysToBirthday (r : Record) (t : Today) : PyR (Option Int) :=
  match r.birthday with
  | none => .ok none
  | some bv =>
    match parseBirthday bv.value with
    | none => .error (.valueError birthdayErrMsg)
    | some (bd, bm, _) =>
      match nextOcc bm bd t with
      | .error e => .error e
      | .ok nb => .ok (some (tdDays (daysFromCivil nb - daysFromCivil t.date) t.frac))

/-- Lines 98‒101: shift a Saturday occurrence (+2 days) or a Sunday
    occurrence (+1 day); weekdays are left unshifted. -/
def shiftWeekend (nb : Date) : Date :=
  if weekdayD nb = 5 then addDays nb 2
  else if weekdayD nb = 6 then addDays nb 1
  else nb

/-- The loop body of `get_upcoming_birthdays` for one record: skip a
    record without a birthday; otherwise compute the day count, filter
    by the horizon, recompute the occurrence (lines 94‒97 duplicate the
    computation of `get_days_to_birthday`), weekend-shift, format. -/
def processRecord (r : Record) (t : Today) (days : Int) :
    PyR (Option (String × String)) :=
  match r.birthday with
  | none => .ok none
  | some bv =>
    match getDaysToBirthday r t with
    | .error e => .error e
    | .ok none => .ok none
    | .ok (some n) =>
      if n ≤ days then
        match parseBirthday bv.value with
        | none => .error (.valueError birthdayErrMsg)
        | some (bd, bm, _) =>
          match nextOcc bm bd t with
          | .error e => .error e
          | .ok nb => .ok (some (r.name, fmtDate (shiftWeekend nb)))
      else .ok none

/-- The record filter of `get_upcoming_birthdays`:
    `days_to_birthday is not None and days_to_birthday <= days`. -/
def qualifies (r : Record) (t : Today) (days : Int) : Bool :=
  match getDaysToBirthday r t with
  | .ok (some n) => n ≤ days
  | _ => false

/-- The iteration of `get_upcoming_birthdays` over the book's records
    (in insertion order); an exception in the loop body aborts the
    whole call. -/
def upcomingLoop (t : Today) (days : Int) :
    List Record → PyR (List (String × String))
  | [] => .ok []
  | r :: rs =>
    match processRecord r t days with
    | .error e => .error e
    | .ok e? =>
      match upcomingLoop t days rs with
      | .error e => .error e
      | .ok rest =>
        .ok (match e? with
             | some en => en :: rest
             | none => rest)

/-! ## `AddressBook` -/

/-- The `AddressBook` mapping: an insertion-ordered association list
    from name to record (a Python `dict`: updating an existing key
    keeps its position, a new key is appended). -/
abbrev Book := List (String × Record)

/-- Python `dict` assignment `self.data[k] = v`. -/
def dictInsert : Book → String → Record → Book
  | [], k, v => [(k, v)]
  | (k', v') :: rest, k, v =>
    if k' = k then (k', v) :: rest else (k', v') :: dictInsert rest k v

/-- `AddressBook.add_record`: `self.data[record.name.value] = record`.
    Never raises. -/
def addRecord (b : Book) (r : Record) : Book :=
  dictInsert b r.name r

/-- `AddressBook.find`: `self.data.get(name, None)`. -/
def findBook : Book → String → Option Record
  | [], _ => none
  | (k, v) :: rest, name => if k = name then some v else findBook rest name

/-- `AddressBook.get_upcoming_birthdays(days=7)`: iterate over
    `self.data.values()`. -/
def getUpcomingBirthdays (b : Book) (t : Today) (days : Int) :
    PyR (List (String × String)) :=
  upcomingLoop t days (b.map Prod.snd)

/-! ## Command handlers

Each handler is modelled in state-passing style
`List String → Book → PyR String × Book`: the returned book reflects
all mutations performed before a potential exception (mutations are
not rolled back by `input_error`). -/

/-- `str(e)` of the `ValueError` raised by unpacking
    `name, phone, *_ = args` with fewer than 2 elements. -/
def unpackAtLeast2Msg (got : Nat) : String :=
  "not enough values to unpack (expected at least 2, got " ++ toString got ++ ")"

/-- `str(e)` of the `ValueError` raised by unpacking a 3-tuple
    (`name, old_phone, new_phone = args`) from the wrong length. -/
def unpackExactly3Msg (got : Nat) : String :=
  if got < 3 then
    "not enough values to unpack (expected 3, got " ++ toString got ++ ")"
  else "too many values to unpack (expected 3)"

/-- `str(e)` of the `ValueError` raised by unpacking a 2-tuple
    (`name, birthday = args`) from the wrong length. -/
def unpackExactly2Msg (got : Nat) : String :=
  if got < 2 then
    "not enough values to unpack (expected 2, got " ++ toString got ++ ")"
  else "too many values to unpack (expected 2)"

/-- `add_contact(args, book)` (body, before the `input_error` wrapper).
    A new record is added to the book before `add_phone` runs, so a
    phone validation error leaves the fresh phoneless record behind;
    `record.add_phone` mutates the record object held by the book,
    modelled by re-inserting the updated record at its key. -/
def addContact (args : List String) (book : Book) : PyR String × Book :=
  match args with
  | name :: phone :: _ =>
    match findBook book name with
    | none =>
      if phone ≠ "" then
        match addPhone (mkRecord name) phone with
        | (.ok _, r') =>
          (.ok "Contact added.", addRecord (addRecord book (mkRecord name)) r')
        | (.error e, _) => (.error e, addRecord book (mkRecord name))
      else (.ok "Contact added.", addRecord book (mkRecord name))
    | some r =>
      if phone ≠ "" then
        match addPhone r phone with
        | (.ok _, r') => (.ok "Contact updated.", addRecord book r')
        | (.error e, _) => (.error e, book)
      else (.ok "Contact updated.", book)
  | _ => (.error (.valueError (unpackAtLeast2Msg args.length)), book)

/-- `change_contact(args, book)` (body). -/
def changeContact (args : List String) (book : Book) : PyR String × Book :=
  match args with
  | [name, old, nw] =>
    match findBook book name with
    | some r =>
      match editPhone r old nw with
      | (.ok _, r') =>
        (.ok ("Phone number updated for " ++ name ++ "."), addRecord book r')
      | (.error e, _) => (.error e, book)
    | none => (.ok "Contact not found.", book)
  | _ => (.error (.valueError (unpackExactly3Msg args.length)), book)

/-- `', '.join(...)` over the phone values. -/
def joinComma : List String → String
  | [] => ""
  | [x] => x
  | x :: xs => x ++ ", " ++ joinComma xs

/-- `show_phone(args, book)` (body): `args[0]` raises `IndexError` on
    an empty argument list. -/
def showPhone (args : List String) (book : Book) : PyR String × Book :=
  match args with
  | [] => (.error .indexError, book)
  | name :: _ =>
    match findBook book name with
    | some r => (.ok (joinComma r.phones), book)
    | none => (.ok "Contact not found.", book)

/-- `add_birthday(args, book)` (body). -/
def addBirthdayCmd (args : List String) (book : Book) : PyR String × Book :=
  match args with
  | [name, bday] =>
    match findBook book name with
    | some r =>
      match addBirthday r bday with
      | (.ok _, r') => (.ok ("Birthday added for " ++ name ++ "."), addRecord book r')
      | (.error e, _) => (.error e, book)
    | none => (.ok "Contact not found.", book)
  | _ => (.error (.valueError (unpackExactly2Msg args.length)), book)

/-- `show_birthday(args, book)` (body). -/
def showBirthdayCmd (args : List String) (book : Book) : PyR String × Book :=
  match args with
  | [] => (.error .indexError, book)
  | name :: _ =>
    match findBook book name with
    | some r =>
      match r.birthday with
      | some b => (.ok b.value, book)
      | none => (.ok "Contact or birthday not found.", book)
    | none => (.ok "Contact or birthday not found.", book)

/-- `'\n'.join(f"{name}: {birthday}" ...)`. -/
def joinLines : List (String × String) → String
  | [] => ""
  | [(n, d)] => n ++ ": " ++ d
  | (n, d) :: xs => n ++ ": " ++ d ++ "\n" ++ joinLines xs

/-- `birthdays(args, book)` (body); the upcoming-birthday computation
    can itself raise `ValueError` (Feb-29 projection), which escapes to
    the `input_error` wrapper. -/
def birthdaysCmd (_args : List String) (book : Book) (t : Today) :
    PyR String × Book :=
  match getUpcomingBirthdays book t 7 with
  | .error e => (.error e, book)
  | .ok [] => (.ok "No birthdays in the next 7 days.", book)
  | .ok l => (.ok (joinLines l), book)

/-- The `input_error` decorator: run the handler; a raised
    `(KeyError, ValueError, IndexError)` is caught and `str(e)` is
    returned in its place.  The book mutations already performed are
    kept. -/
def inputError (res : PyR String × Book) : String × Book :=
  match res with
  | (.ok m, b) => (m, b)
  | (.error e, b) => (pyStr e, b)

/-- Python `args.split()`: split on whitespace runs, no empty fields. -/
def pySplitAux : List Char → List Char → List String
  | [], [] => []
  | [], acc => [String.mk acc.reverse]
  | c :: cs, acc =>
    if c = ' ' || c = '\t' || c = '\n' || c = '\r' then
      match acc with
      | [] => pySplitAux cs []
      | _ => String.mk acc.reverse :: pySplitAux cs []
    else pySplitAux cs (c :: acc)

/-- Python `s.split()`. -/
def pySplit (s : String) : List String :=
  pySplitAux s.toList []

/-- `process_command(command, args, book, interface)`: dispatch a
    command to its (wrapped) handler; returns the resulting book and
    whether the command loop continues (`False` only for
    `close`/`exit`).  Display-only output is dropped. -/
def processCommand (cmd : String) (args : String) (book : Book) (t : Today) :
    Book × Bool :=
  if cmd = "hello" then (book, true)
  else if cmd = "add" then ((inputError (addContact (pySplit args) book)).2, true)
  else if cmd = "change" then ((inputError (changeContact (pySplit args) book)).2, true)
  else if cmd = "phone" then ((inputError (showPhone (pySplit args) book)).2, true)
  else if cmd = "all" then (book, true)
  else if cmd = "add-birthday" then
    ((inputError (addBirthdayCmd (pySplit args) book)).2, true)
  else if cmd = "show-birthday" then
    ((inputError (showBirthdayCmd (pySplit args) book)).2, true)
  else if cmd = "birthdays" then
    ((inputError (birthdaysCmd (pySplit args) book t)).2, true)
  else if cmd = "help" then (book, true)
  else if cmd = "close" || cmd = "exit" then (book, false)
  else (book, true)

/-! ## Reachable address books

The books reachable from the empty book by any sequence of
`add_record`, `find` (which does not mutate) and handler operations. -/

/-- Reachability of a book state through the public operations. -/
inductive Reach : Book → Prop where
  | empty : Reach []
  | addRec (r : Record) {b : Book} : Reach b → Reach (addRecord b r)
  | addC (args : List String) {b : Book} :
      Reach b → Reach (inputError (addContact args b)).2
  | changeC (args : List String) {b : Book} :
      Reach b → Reach (inputError (changeContact args b)).2
  | showP (args : List String) {b : Book} :
      Reach b → Reach (inputError (showPhone args b)).2
  | addB (args : List String) {b : Book} :
      Reach b → Reach (inputError (addBirthdayCmd args b)).2
  | showB (args : List String) {b : Book} :
      Reach b → Reach (inputError (showBirthdayCmd args b)).2
  | bdays (args : List String) (t : Today) {b : Book} :
      Reach b → Reach (inputError (birthdaysCmd args b t)).2

/-- The key invariant of the book: every key equals the name stored in
    its record. -/
def bookInv (b : Book) : Prop :=
  ∀ p ∈ b, (Prod.snd p).name = Prod.fst p

/-- Rejoin the fields produced by `splitDots` with dots (specification
    helper: `joinDots (splitDots cs) = cs`). -/
def joinDots : List (List Char) → List Char
  | [] => []
  | [x] => x
  | x :: xs => x ++ '.' :: joinDots xs

/-! ## Dictionary lemmas -/

theorem findBook_dictInsert_self (b : Book) (k : String) (v : Record) :
    findBook (dictInsert b k v) k = some v := by
  induction b with
  | nil => simp [dictInsert, findBook]
  | cons p rest ih =>
    obtain ⟨k', v'⟩ := p
    by_cases h : k' = k
    · simp [dictInsert, findBook, h]
    · simp [dictInsert, findBook, h, ih]

theorem findBook_dictInsert_ne (b : Book) (k k' : String) (v : Record)
    (h : k' ≠ k) : findBook (dictInsert b k v) k' = findBook b k' := by
  have h' : ¬ k = k' := fun hh => h hh.symm
  induction b with
  | nil => simp [dictInsert, findBook, h']
  | cons p rest ih =>
    obtain ⟨k₀, v₀⟩ := p
    by_cases h0 : k₀ = k
    · subst h0
      simp [dictInsert, findBook, h']
    · simp [dictInsert, findBook, h0, ih]

/-- C7: `add_record` keys the entry by the record's own name and
    overwrites any previous entry for that name entirely: after two
    `add_record` calls with same-named records only the second record
    is found (its phones and birthday alone survive), while every
    other name maps exactly as before.  `add_record` is a total
    function (it never raises). -/
theorem add_record_overwrites (book : Book) (r1 r2 : Record)
    (h : r1.name = r2.name) :
    findBook (addRecord (addRecord book r1) r2) r2.name = some r2
    ∧ ∀ k, k ≠ r2.name →
        findBook (addRecord (addRecord book r1) r2) k = findBook book k := by
  constructor
  · exact findBook_dictInsert_self _ _ _
  · intro k hk
    unfold addRecord
    rw [findBook_dictInsert_ne _ _ _ _ hk, h]
    exact findBook_dictInsert_ne _ _ _ _ hk

/-- Witness for C7: overwriting `"Alice"`'s record keeps only the
    second record's phones, and leaves `"Bob"` untouched. -/
theorem add_record_overwrites_witness :
    findBook
      (addRecord
        (addRecord [("Bob", mkRecord "Bob")]
          { name := "Alice", phones := ["1111111111"], birthday := none })
        { name := "Alice", phones := ["2222222222"], birthday := none })
      "Alice"
      = some { name := "Alice", phones := ["2222222222"], birthday := none }
    ∧ findBook
      (addRecord
        (addRecord [("Bob", mkRecord "Bob")]
          { name := "Alice", phones := ["1111111111"], birthday := none })
        { name := "Alice", phones := ["2222222222"], birthday := none })
      "Bob"
      = findBook [("Bob", mkRecord "Bob")] "Bob" :=
  ⟨(add_record_overwrites [("Bob", mkRecord "Bob")]
      { name := "Alice", phones := ["1111111111"], birthday := none }
      { name := "Alice", phones := ["2222222222"], birthday := none } rfl).1,
   (add_record_overwrites [("Bob", mkRecord "Bob")]
      { name := "Alice", phones := ["1111111111"], birthday := none }
      { name := "Alice", phones := ["2222222222"], birthday := none } rfl).2
     "Bob" (by decide)⟩

/-! ## C10: `add_phone` validates before mutating -/

/-- C10: `add_phone` constructs the `Phone` before appending, so an
    invalid phone string raises and leaves the record exactly as it
    was (phones, name and birthday unchanged); a valid phone string is
    appended at the end of the sequence. -/
theorem add_phone_error_preserves_record (r : Record) (p : String) :
    (isValidPhone p = false →
       addPhone r p = (.error (.valueError phoneErrMsg), r))
    ∧ (isValidPhone p = true →
       addPhone r p = (.ok (), { r with phones := r.phones ++ [p] })) := by
  constructor <;> intro h <;> simp [addPhone, mkPhone, h]

/-- Witness for C10 at concrete inputs: a 3-character phone is
    rejected with the record unchanged; a valid phone is appended. -/
theorem add_phone_error_preserves_record_witness :
    addPhone (mkRecord "alice") "123" = (.error (.valueError phoneErrMsg), mkRecord "alice")
    ∧ addPhone (mkRecord "alice") "1234567890" =
        (.ok (), { name := "alice", phones := ["1234567890"], birthday := none }) :=
  ⟨(add_phone_error_preserves_record (mkRecord "alice") "123").1 (by decide),
   (add_phone_error_preserves_record (mkRecord "alice") "1234567890").2 (by decide)⟩

/-! ## C5: `edit_phone` -/

theorem editPhoneList_found (old nw : String) (hnw : isValidPhone nw = true) :
    ∀ l1 l2, old ∉ l1 →
      editPhoneList (l1 ++ old :: l2) old nw = .ok (l1 ++ nw :: l2) := by
  intro l1
  induction l1 with
  | nil => intro l2 _; simp [editPhoneList, mkPhone, hnw]
  | cons p ps ih =>
    intro l2 hmem
    have hne : p ≠ old := by
      intro hh
      exact hmem (hh ▸ List.mem_cons_self p ps)
    have hmem' : old ∉ ps := fun hh => hmem (List.mem_cons_of_mem p hh)
    simp [editPhoneList, hne, ih l2 hmem']

theorem editPhoneList_not_found (old nw : String) :
    ∀ ps, old ∉ ps → editPhoneList ps old nw = .error (.valueError notFoundMsg) := by
  intro ps
  induction ps with
  | nil => intro _; rfl
  | cons p ps ih =>
    intro hmem
    have hne : p ≠ old := by
      intro hh
      exact hmem (hh ▸ List.mem_cons_self p ps)
    have hmem' : old ∉ ps := fun hh => hmem (List.mem_cons_of_mem p hh)
    simp [editPhoneList, hne, ih hmem']

/-- C5: `edit_phone(old, new)` replaces the first phone equal to `old`
    in place with the validated `Phone(new)` — position preserved and
    all other phones untouched — and raises
    `ValueError("Phone number not found")` when `old` is absent
    (leaving the record unchanged). -/
theorem edit_phone_replaces_first_in_place (r : Record) (old nw : String) :
    (∀ l1 l2, r.phones = l1 ++ old :: l2 → old ∉ l1 → isValidPhone nw = true →
       editPhone r old nw = (.ok (), { r with phones := l1 ++ nw :: l2 }))
    ∧ (old ∉ r.phones →
       editPhone r old nw = (.error (.valueError notFoundMsg), r)) := by
  constructor
  · intro l1 l2 hsplit hnotin hnw
    unfold editPhone
    rw [hsplit, editPhoneList_found old nw hnw l1 l2 hnotin]
  · intro hnotin
    unfold editPhone
    rw [editPhoneList_not_found old nw r.phones hnotin]

/-- Witness for C5, the spec's own example: in
    `["1111111111", "2222222222"]` editing `"1111111111"` to
    `"3333333333"` yields `["3333333333", "2222222222"]`, and editing
    an absent number fails with the not-found error. -/
theorem edit_phone_replaces_first_in_place_witness :
    editPhone { name := "alice", phones := ["1111111111", "2222222222"], birthday := none }
        "1111111111" "3333333333"
      = (.ok (), { name := "alice", phones := ["3333333333", "2222222222"], birthday := none })
    ∧ editPhone { name := "alice", phones := ["1111111111", "2222222222"], birthday := none }
        "9999999999" "0000000000"
      = (.error (.valueError notFoundMsg),
         { name := "alice", phones := ["1111111111", "2222222222"], birthday := none }) :=
  ⟨(edit_phone_replaces_first_in_place
      { name := "alice", phones := ["1111111111", "2222222222"], birthday := none }
      "1111111111" "3333333333").1 [] ["2222222222"] rfl (by decide) (by decide),
   (edit_phone_replaces_first_in_place
      { name := "alice", phones := ["1111111111", "2222222222"], birthday := none }
      "9999999999" "0000000000").2 (by decide)⟩

/-! ## C6: Feb-29 birthdays and non-leap target years -/

theorem validDate_feb29_of_not_leap (y : Int) (hl : leapB y = false) :
    validDate y 2 29 = false := by
  simp [validDate, daysInMonth, hl]

theorem leapB_succ_of_leapB (y : Int) (hl : leapB y = true) :
    leapB (y + 1) = false := by
  simp only [leapB, Bool.and_eq_true, beq_iff_eq] at hl
  obtain ⟨h4, -⟩ := hl
  have h4' : (y + 1) % 4 ≠ 0 := by omega
  simp [leapB, h4']

/-- C6: for a record whose stored birthday denotes February 29, the
    `replace(year=...)` projection onto a non-leap target year raises
    `ValueError("day is out of range for month")` instead of returning
    a day count: if the current year is not a leap year the first
    `replace` fails, and if the current year is a leap year whose
    Feb 29 already passed, the projection onto the (never leap)
    following year fails. -/
theorem feb29_nonleap_target_raises (r : Record) (t : Today) (bv : Birthday)
    (yb : Int) (hb : r.birthday = some bv)
    (hp : parseBirthday bv.value = some (29, 2, yb)) :
    (leapB t.date.year = false →
       getDaysToBirthday r t = .error (.valueError dayRangeMsg))
    ∧ (dtLtToday ⟨t.date.year, 2, 29⟩ t = true →
       getDaysToBirthday r t = .error (.valueError dayRangeMsg)) := by
  constructor
  · intro hl
    have hmk : mkDate t.date.year 2 29 = none := by
      simp [mkDate, validDate_feb29_of_not_leap t.date.year hl]
    simp [getDaysToBirthday, hb, hp, nextOcc, hmk]
  · intro hlt
    cases hl : leapB t.date.year with
    | false =>
      have hmk : mkDate t.date.year 2 29 = none := by
        simp [mkDate, validDate_feb29_of_not_leap t.date.year hl]
      simp [getDaysToBirthday, hb, hp, nextOcc, hmk]
    | true =>
      have hmk2 : mkDate (t.date.year + 1) 2 29 = none := by
        simp [mkDate, validDate_feb29_of_not_leap (t.date.year + 1)
          (leapB_succ_of_leapB t.date.year hl)]
      cases hv : validDate t.date.year 2 29 with
      | false =>
        have hmk : mkDate t.date.year 2 29 = none := by simp [mkDate, hv]
        simp [getDaysToBirthday, hb, hp, nextOcc, hmk]
      | true =>
        have hmk : mkDate t.date.year 2 29 = some ⟨t.date.year, 2, 29⟩ := by
          simp [mkDate, hv]
        simp [getDaysToBirthday, hb, hp, nextOcc, hmk, hlt, hmk2]

/-- Witness for C6: a `"29.02.2024"` birthday projected from
    2023-05-01 (non-leap current year) raises, and projected from
    2024-05-01 (leap year, occurrence passed, next year 2025 not leap)
    also raises. -/
theorem feb29_nonleap_target_raises_witness :
    getDaysToBirthday { name := "bob", phones := [], birthday := some ⟨"29.02.2024"⟩ }
        { date := ⟨2023, 5, 1⟩, frac := 0 }
      = .error (.valueError dayRangeMsg)
    ∧ getDaysToBirthday { name := "bob", phones := [], birthday := some ⟨"29.02.2024"⟩ }
        { date := ⟨2024, 5, 1⟩, frac := 0 }
      = .error (.valueError dayRangeMsg) :=
  ⟨(feb29_nonleap_target_raises
      { name := "bob", phones := [], birthday := some ⟨"29.02.2024"⟩ }
      { date := ⟨2023, 5, 1⟩, frac := 0 } ⟨"29.02.2024"⟩ 2024 rfl (by decide)).1
      (by decide),
   (feb29_nonleap_target_raises
      { name := "bob", phones := [], birthday := some ⟨"29.02.2024"⟩ }
      { date := ⟨2024, 5, 1⟩, frac := 0 } ⟨"29.02.2024"⟩ 2024 rfl (by decide)).2
      (by decide)⟩

/-! ## C4: phone validation -/

theorem pyIsDigit_ascii (c : Char) (h : c.toNat < 128) :
    pyIsDigit c = true ↔ ('0' ≤ c ∧ c ≤ '9') := by
  unfold pyIsDigit
  simp only [Bool.or_eq_true, Bool.and_eq_true, decide_eq_true_eq]
  constructor
  · rintro (((⟨h1, h2⟩ | ⟨h1, h2⟩) | ⟨h1, h2⟩) | ⟨h1, h2⟩)
    · exact ⟨h1, h2⟩
    all_goals omega
  · intro hh
    exact Or.inl (Or.inl (Or.inl ⟨hh.1, hh.2⟩))

theorem isdigit_len10_iff (l : List Char) (hascii : ∀ c ∈ l, c.toNat < 128) :
    ((!l.isEmpty && l.all pyIsDigit) && (l.length == 10)) = true ↔
      (l.length = 10 ∧ ∀ c ∈ l, '0' ≤ c ∧ c ≤ '9') := by
  cases l with
  | nil => simp
  | cons a l' =>
    simp only [List.isEmpty_cons, Bool.not_false, Bool.true_and, Bool.and_eq_true,
      List.all_eq_true, beq_iff_eq]
    constructor
    · rintro ⟨hall, hlen⟩
      exact ⟨hlen, fun c hc => (pyIsDigit_ascii c (hascii c hc)).mp (hall c hc)⟩
    · rintro ⟨hlen, hall⟩
      exact ⟨fun c hc => (pyIsDigit_ascii c (hascii c hc)).mpr (hall c hc), hlen⟩

theorem mkPhone_ok_iff (s : String) :
    mkPhone s = .ok s ↔ isValidPhone s = true := by
  unfold mkPhone
  by_cases h : isValidPhone s = true
  · simp [h]
  · simp [h]

theorem isValidPhone_iff_ascii (s : String)
    (hascii : ∀ c ∈ s.toList, c.toNat < 128) :
    isValidPhone s = true ↔
      (s.toList.length = 10 ∧ ∀ c ∈ s.toList, '0' ≤ c ∧ c ≤ '9') := by
  unfold isValidPhone pyIsDigitStr
  exact isdigit_len10_iff s.toList hascii

/-- C4 counterexample: the validation is `phone.isdigit()`, and
    Python's `str.isdigit` accepts non-ASCII Unicode digits, so the
    ten Arabic-Indic digits U+0660..U+0669 construct a `Phone` even
    though none of the characters is in the range `0`-`9`; the claim's
    "exactly when each character is in 0-9" is therefore false. -/
theorem phone_accepts_nonascii_digits :
    mkPhone "٠١٢٣٤٥٦٧٨٩" = .ok "٠١٢٣٤٥٦٧٨٩"
    ∧ ¬ (∀ c ∈ "٠١٢٣٤٥٦٧٨٩".toList, '0' ≤ c ∧ c ≤ '9') := by
  constructor
  · rfl
  · decide

/-- C4 (amended): `Phone` construction succeeds exactly when the input
    is 10 characters each satisfying Python's `str.isdigit`; restricted
    to ASCII input that means exactly the decimal digits `0`-`9`.  On
    success the raw digit string is stored unmodified (leading zeros
    preserved); otherwise it fails with the fixed `ValueError`. -/
theorem phone_validation_amended :
    (∀ s : String, (∀ c ∈ s.toList, c.toNat < 128) →
       (mkPhone s = .ok s ↔
         (s.toList.length = 10 ∧ ∀ c ∈ s.toList, '0' ≤ c ∧ c ≤ '9')))
    ∧ (∀ s : String,
        mkPhone s = .ok s ∨ mkPhone s = .error (.valueError phoneErrMsg))
    ∧ mkPhone "1234567890" = .ok "1234567890"
    ∧ mkPhone "12345" = .error (.valueError phoneErrMsg)
    ∧ mkPhone "12345678ab" = .error (.valueError phoneErrMsg)
    ∧ mkPhone "" = .error (.valueError phoneErrMsg) := by
  refine ⟨?_, ?_, rfl, rfl, rfl, rfl⟩
  · intro s hascii
    exact (mkPhone_ok_iff s).trans (isValidPhone_iff_ascii s hascii)
  · intro s
    unfold mkPhone
    by_cases h : isValidPhone s = true
    · simp [h]
    · simp [h]

/-- Witness for C4 (amended): a leading-zero phone number is accepted
    and stored verbatim; a 3-digit string is rejected. -/
theorem phone_validation_amended_witness :
    mkPhone "0123456789" = .ok "0123456789"
    ∧ mkPhone "123" = .error (.valueError phoneErrMsg) := by
  constructor
  · exact (phone_validation_amended.1 "0123456789" (by decide)).mpr (by decide)
  · rcases phone_validation_amended.2.1 "123" with h | h
    · exact absurd ((phone_validation_amended.1 "123" (by decide)).mp h) (by decide)
    · exact h

/-! ## C3: birthday validation -/

theorem splitDots_ne_nil (cs : List Char) : splitDots cs ≠ [] := by
  induction cs with
  | nil => simp [splitDots]
  | cons c cs ih =>
    unfold splitDots
    by_cases h : c = '.'
    · simp [h]
    · rw [if_neg h]
      cases hs : splitDots cs with
      | nil => simp
      | cons r rs => simp

theorem joinDots_splitDots (cs : List Char) : joinDots (splitDots cs) = cs := by
  induction cs with
  | nil => rfl
  | cons c cs ih =>
    unfold splitDots
    by_cases h : c = '.'
    · subst h
      rw [if_pos rfl]
      cases hs : splitDots cs with
      | nil => exact absurd hs (splitDots_ne_nil cs)
      | cons r rs =>
        rw [hs] at ih
        simp [joinDots, ih]
    · rw [if_neg h]
      cases hs : splitDots cs with
      | nil => exact absurd hs (splitDots_ne_nil cs)
      | cons r rs =>
        rw [hs] at ih
        cases rs with
        | nil =>
          simp only [joinDots] at ih ⊢
          rw [ih]
        | cons r2 rs' =>
          simp only [joinDots] at ih ⊢
          rw [List.cons_append, ih]

theorem splitDots_noDot_self (cs : List Char) (h : '.' ∉ cs) :
    splitDots cs = [cs] := by
  induction cs with
  | nil => rfl
  | cons c cs ih =>
    have hc : ¬ (c = '.') := fun hh => h (hh ▸ List.mem_cons_self c cs)
    have h' : '.' ∉ cs := fun hh => h (List.mem_cons_of_mem c hh)
    unfold splitDots
    rw [if_neg hc, ih h']

theorem splitDots_append (a rest : List Char) (h : '.' ∉ a) :
    splitDots (a ++ '.' :: rest) = a :: splitDots rest := by
  induction a with
  | nil => simp [splitDots]
  | cons c a' ih =>
    have hc : ¬ (c = '.') := fun hh => h (hh ▸ List.mem_cons_self c a')
    have h' : '.' ∉ a' := fun hh => h (List.mem_cons_of_mem c hh)
    rw [List.cons_append, splitDots, if_neg hc, ih h']

theorem dayFieldOk_digits (f : List Char) (h : dayFieldOk f = true) :
    ∀ c ∈ f, '0' ≤ c ∧ c ≤ '9' := by
  match f with
  | [] => simp [dayFieldOk] at h
  | [a] =>
    simp only [dayFieldOk, Bool.and_eq_true, decide_eq_true_eq] at h
    intro c hc
    simp only [List.mem_singleton] at hc
    subst hc
    exact ⟨le_trans (by decide) h.1, h.2⟩
  | [a, b] =>
    simp only [dayFieldOk, Bool.or_eq_true, Bool.and_eq_true,
      decide_eq_true_eq] at h
    intro c hc
    have hca : c = a ∨ c = b := by
      rcases List.mem_cons.mp hc with h1 | h1
      · exact Or.inl h1
      · exact Or.inr (List.mem_singleton.mp h1)
    rcases h with (⟨ha, hb⟩ | ⟨ha, hb⟩) | ⟨ha, hb⟩
    · rcases hca with hc1 | hc1 <;> subst hc1
      · subst ha; exact ⟨by decide, by decide⟩
      · rcases hb with hb | hb <;> subst hb <;> exact ⟨by decide, by decide⟩
    · rcases hca with hc1 | hc1 <;> subst hc1
      · rcases ha with ha | ha <;> subst ha <;> exact ⟨by decide, by decide⟩
      · exact hb
    · rcases hca with hc1 | hc1 <;> subst hc1
      · subst ha; exact ⟨by decide, by decide⟩
      · exact ⟨le_trans (by decide) hb.1, hb.2⟩
  | _ :: _ :: _ :: _ => simp [dayFieldOk] at h

theorem monthFieldOk_digits (f : List Char) (h : monthFieldOk f = true) :
    ∀ c ∈ f, '0' ≤ c ∧ c ≤ '9' := by
  match f with
  | [] => simp [monthFieldOk] at h
  | [a] =>
    simp only [monthFieldOk, Bool.and_eq_true, decide_eq_true_eq] at h
    intro c hc
    simp only [List.mem_singleton] at hc
    subst hc
    exact ⟨le_trans (by decide) h.1, h.2⟩
  | [a, b] =>
    simp only [monthFieldOk, Bool.or_eq_true, Bool.and_eq_true,
      decide_eq_true_eq] at h
    intro c hc
    have hca : c = a ∨ c = b := by
      rcases List.mem_cons.mp hc with h1 | h1
      · exact Or.inl h1
      · exact Or.inr (List.mem_singleton.mp h1)
    rcases h with ⟨ha, hb⟩ | ⟨ha, hb⟩
    · rcases hca with hc1 | hc1 <;> subst hc1
      · subst ha; exact ⟨by decide, by decide⟩
      · rcases hb with (hb | hb) | hb <;> subst hb <;> exact ⟨by decide, by decide⟩
    · rcases hca with hc1 | hc1 <;> subst hc1
      · subst ha; exact ⟨by decide, by decide⟩
      · exact ⟨le_trans (by decide) hb.1, hb.2⟩
  | _ :: _ :: _ :: _ => simp [monthFieldOk] at h

theorem yearFieldOk_digits (f : List Char) (h : yearFieldOk f = true) :
    ∀ c ∈ f, '0' ≤ c ∧ c ≤ '9' := by
  unfold yearFieldOk at h
  rw [Bool.and_eq_true, List.all_eq_true] at h
  intro c hc
  have := h.2 c hc
  rw [Bool.and_eq_true, decide_eq_true_eq, decide_eq_true_eq] at this
  exact this

theorem dayFieldOk_noDot (f : List Char) (h : dayFieldOk f = true) : '.' ∉ f :=
  fun hmem => absurd (dayFieldOk_digits f h '.' hmem).1 (by decide)

theorem monthFieldOk_noDot (f : List Char) (h : monthFieldOk f = true) : '.' ∉ f :=
  fun hmem => absurd (monthFieldOk_digits f h '.' hmem).1 (by decide)

theorem yearFieldOk_noDot (f : List Char) (h : yearFieldOk f = true) : '.' ∉ f :=
  fun hmem => absurd (yearFieldOk_digits f h '.' hmem).1 (by decide)

theorem parseBirthdayL_three (cs : List Char) (df mf yf : List Char)
    (hs : splitDots cs = [df, mf, yf]) :
    parseBirthdayL cs =
      if (dayFieldOk df && monthFieldOk mf && yearFieldOk yf) = true then
        if validDate (digitsVal yf) (digitsVal mf) (digitsVal df) = true then
          some (digitsVal df, digitsVal mf, digitsVal yf)
        else none
      else none := by
  unfold parseBirthdayL
  rw [hs]

/-- C3 counterexample: `strptime`'s `%d` and `%m` accept one-digit
    fields (regex `3[01]|[12]\d|0[1-9]|[1-9]`), so
    `Birthday("1.1.2024")` succeeds, contradicting the claim that any
    string with one-digit fields fails validation. -/
theorem birthday_accepts_single_digit_fields :
    mkBirthday "1.1.2024" = .ok ⟨"1.1.2024"⟩
    ∧ birthdayOk "1.1.2024" = true :=
  ⟨rfl, rfl⟩

/-- C3 (amended): for ASCII input — where the field predicates model
    strptime's `\d` exactly — `Birthday` construction succeeds exactly
    for strings of the form day `.` month `.` year where the day field
    is one digit 1-9 or two digits denoting 1..31, the month field is
    one digit 1-9 or two digits denoting 1..12, the year field is
    exactly four digits, and the triple denotes a real calendar date
    (so `29.02.2024` succeeds while `29.02.2023` and `31.04.2024`
    fail); one-digit day/month fields are accepted, contrary to the
    original claim's strict two-digit pattern.  (On non-ASCII input
    CPython's `\d` and `int()` additionally accept Unicode decimal
    digits, e.g. a year field `٢٠٢٤`; the characterization is
    therefore stated only for ASCII strings.) -/
theorem birthday_validation_amended :
    birthdayOk "29.02.2024" = true
    ∧ birthdayOk "29.02.2023" = false
    ∧ birthdayOk "31.04.2024" = false
    ∧ birthdayOk "1.1.2024" = true
    ∧ (∀ s : String, (∀ c ∈ s.toList, c.toNat < 128) →
        (birthdayOk s = true ↔
        ∃ df mf yf : List Char,
          s.toList = df ++ '.' :: (mf ++ '.' :: yf)
          ∧ dayFieldOk df = true ∧ monthFieldOk mf = true
          ∧ yearFieldOk yf = true
          ∧ validDate (digitsVal yf) (digitsVal mf) (digitsVal df) = true)) := by
  refine ⟨rfl, rfl, rfl, rfl, ?_⟩
  intro s _
  constructor
  · intro h
    unfold birthdayOk parseBirthday at h
    rcases hs : splitDots s.toList with _ | ⟨f1, _ | ⟨f2, _ | ⟨f3, _ | ⟨f4, rest⟩⟩⟩⟩
    · exact absurd hs (splitDots_ne_nil s.toList)
    · have hnone : parseBirthdayL s.toList = none := by
        unfold parseBirthdayL; rw [hs]
      rw [hnone] at h
      simp at h
    · have hnone : parseBirthdayL s.toList = none := by
        unfold parseBirthdayL; rw [hs]
      rw [hnone] at h
      simp at h
    · refine ⟨f1, f2, f3, ?_, ?_⟩
      · have hj := joinDots_splitDots s.toList
        rw [hs] at hj
        simp only [joinDots] at hj
        exact hj.symm
      · rw [parseBirthdayL_three s.toList f1 f2 f3 hs] at h
        by_cases hc : (dayFieldOk f1 && monthFieldOk f2 && yearFieldOk f3) = true
        · rw [if_pos hc] at h
          by_cases hv :
              validDate (digitsVal f3) (digitsVal f2) (digitsVal f1) = true
          · rw [Bool.and_eq_true, Bool.and_eq_true] at hc
            exact ⟨hc.1.1, hc.1.2, hc.2, hv⟩
          · rw [if_neg hv] at h
            simp at h
        · rw [if_neg hc] at h
          simp at h
    · have hnone : parseBirthdayL s.toList = none := by
        unfold parseBirthdayL; rw [hs]
      rw [hnone] at h
      simp at h
  · rintro ⟨df, mf, yf, hsplit, hd, hm, hy, hv⟩
    have hs : splitDots s.toList = [df, mf, yf] := by
      rw [hsplit, splitDots_append df _ (dayFieldOk_noDot df hd),
        splitDots_append mf _ (monthFieldOk_noDot mf hm),
        splitDots_noDot_self yf (yearFieldOk_noDot yf hy)]
    unfold birthdayOk parseBirthday
    rw [parseBirthdayL_three s.toList df mf yf hs, hd, hm, hy]
    simp [hv]

/-- Witness for C3 (amended): the characterization applied at
    `"05.06.1990"` (a well-formed two-digit date). -/
theorem birthday_validation_amended_witness :
    birthdayOk "05.06.1990" = true :=
  (birthday_validation_amended.2.2.2.2 "05.06.1990" (by decide)).mpr
    ⟨['0', '5'], ['0', '6'], ['1', '9', '9', '0'], by decide, by decide,
      by decide, by decide, by decide⟩


/-! ## C1/C2: the upcoming-birthday query -/

theorem qualifies_eq_false_err (r : Record) (t : Today) (days : Int) (e : PyErr)
    (hd : getDaysToBirthday r t = .error e) : qualifies r t days = false := by
  unfold qualifies
  rw [hd]

theorem qualifies_eq_false_none (r : Record) (t : Today) (days : Int)
    (hd : getDaysToBirthday r t = .ok none) : qualifies r t days = false := by
  unfold qualifies
  rw [hd]

theorem qualifies_eq_decide (r : Record) (t : Today) (days n : Int)
    (hd : getDaysToBirthday r t = .ok (some n)) :
    qualifies r t days = decide (n ≤ days) := by
  unfold qualifies
  rw [hd]

theorem getDaysToBirthday_none (r : Record) (t : Today)
    (hb : r.birthday = none) : getDaysToBirthday r t = .ok none := by
  unfold getDaysToBirthday
  rw [hb]

theorem processRecord_ok (r : Record) (t : Today) (days : Int)
    (e? : Option (String × String)) (h : processRecord r t days = .ok e?) :
    e?.isSome = qualifies r t days ∧ ∀ en, e? = some en → en.1 = r.name := by
  unfold processRecord at h
  split at h
  · rename_i hb
    injection h with h1
    subst h1
    rw [qualifies_eq_false_none r t days (getDaysToBirthday_none r t hb)]
    exact ⟨rfl, fun en hen => by cases hen⟩
  · rename_i bv hb
    split at h
    · exact Except.noConfusion h
    · rename_i hd
      injection h with h1
      subst h1
      rw [qualifies_eq_false_none r t days hd]
      exact ⟨rfl, fun en hen => by cases hen⟩
    · rename_i n hd
      split at h
      · rename_i hle
        split at h
        · exact Except.noConfusion h
        · rename_i bd bm yb hp
          split at h
          · exact Except.noConfusion h
          · rename_i nb ho
            injection h with h1
            subst h1
            rw [qualifies_eq_decide r t days n hd]
            refine ⟨by simp [hle], ?_⟩
            intro en hen
            rw [← Option.some_inj.mp hen]
      · rename_i hle
        injection h with h1
        subst h1
        rw [qualifies_eq_decide r t days n hd]
        refine ⟨by simp [hle], ?_⟩
        intro en hen
        cases hen

/-- The names reported by a successful upcoming-birthday iteration are
    exactly those of the qualifying records, in iteration order. -/
theorem upcomingLoop_names (t : Today) (days : Int) :
    ∀ recs out, upcomingLoop t days recs = .ok out →
      out.map Prod.fst
        = (recs.filter (fun r => qualifies r t days)).map Record.name := by
  intro recs
  induction recs with
  | nil =>
    intro out h
    unfold upcomingLoop at h
    injection h with h1
    subst h1
    simp
  | cons r rs ih =>
    intro out h
    unfold upcomingLoop at h
    cases hp : processRecord r t days with
    | error e =>
      simp only [hp] at h
      exact Except.noConfusion h
    | ok e? =>
      simp only [hp] at h
      cases hrest : upcomingLoop t days rs with
      | error e =>
        simp only [hrest] at h
        exact Except.noConfusion h
      | ok rest =>
        simp only [hrest] at h
        obtain ⟨hq, hname⟩ := processRecord_ok r t days e? hp
        cases e? with
        | none =>
          injection h with h1
          subst h1
          have hqf : qualifies r t days = false := by simpa using hq.symm
          simp [List.filter_cons, hqf, ih rest hrest]
        | some en =>
          injection h with h1
          subst h1
          have hqt : qualifies r t days = true := by simpa using hq.symm
          have hn := hname en rfl
          simp [List.filter_cons, hqt, ih rest hrest, hn]

/-- C1: a record with a birthday contributes an entry to
    `get_upcoming_birthdays(horizon_days)` exactly when its
    `get_days_to_birthday` result is defined and at most the horizon
    (so an occurrence exactly `horizon_days` away is included and one
    at `horizon_days + 1` is excluded), in iteration order; a record
    without a birthday never qualifies and is skipped entirely,
    contributing neither an entry nor an error. -/
theorem upcoming_includes_iff_within_horizon (t : Today) (days : Int) :
    (∀ (b : Book) out, getUpcomingBirthdays b t days = .ok out →
       out.map Prod.fst
         = ((b.map Prod.snd).filter (fun r => qualifies r t days)).map Record.name)
    ∧ (∀ recs out, upcomingLoop t days recs = .ok out →
       out.map Prod.fst
         = (recs.filter (fun r => qualifies r t days)).map Record.name)
    ∧ (∀ r : Record, r.birthday = none → qualifies r t days = false)
    ∧ (∀ (r : Record) (rs : List Record), r.birthday = none →
       upcomingLoop t days (r :: rs) = upcomingLoop t days rs) := by
  refine ⟨fun b out h => upcomingLoop_names t days (b.map Prod.snd) out h,
    upcomingLoop_names t days, ?_, ?_⟩
  · intro r hbnone
    exact qualifies_eq_false_none r t days (getDaysToBirthday_none r t hbnone)
  · intro r rs hbnone
    have hp : processRecord r t days = .ok none := by
      unfold processRecord
      rw [hbnone]
    rw [upcomingLoop, hp]
    cases hrest : upcomingLoop t days rs with
    | error e => exact rfl
    | ok rest => exact rfl

/-- Witness for C1: a book holding one record two days from its
    birthday yields exactly that record's entry; a birthday-less
    record never qualifies and is silently skipped by the loop. -/
theorem upcoming_includes_iff_within_horizon_witness :
    List.map Prod.fst [("alice", "03.06.2024")]
      = List.map Record.name
          (List.filter (fun r => qualifies r ⟨⟨2024, 5, 30⟩, 0⟩ 7)
            [{ name := "alice", phones := [], birthday := some ⟨"01.06.1990"⟩ }])
    ∧ qualifies { name := "carol", phones := [], birthday := none }
        ⟨⟨2024, 5, 30⟩, 0⟩ 7 = false
    ∧ upcomingLoop ⟨⟨2024, 5, 30⟩, 0⟩ 7
        [{ name := "carol", phones := [], birthday := none }]
      = upcomingLoop ⟨⟨2024, 5, 30⟩, 0⟩ 7 [] :=
  ⟨(upcoming_includes_iff_within_horizon ⟨⟨2024, 5, 30⟩, 0⟩ 7).2.1
     [{ name := "alice", phones := [], birthday := some ⟨"01.06.1990"⟩ }]
     [("alice", "03.06.2024")] rfl,
   (upcoming_includes_iff_within_horizon ⟨⟨2024, 5, 30⟩, 0⟩ 7).2.2.1
     { name := "carol", phones := [], birthday := none } rfl,
   (upcoming_includes_iff_within_horizon ⟨⟨2024, 5, 30⟩, 0⟩ 7).2.2.2
     { name := "carol", phones := [], birthday := none } [] rfl⟩

/-- C2: every entry of `get_upcoming_birthdays` reports the record's
    name with the computed next occurrence formatted `DD.MM.YYYY`
    (`strftime("%d.%m.%Y")`) after the weekend shift: a Saturday
    occurrence (`weekday() == 5`) is moved +2 days, a Sunday occurrence
    (`weekday() == 6`) +1 day, and a Monday-Friday occurrence
    (weekday < 5) is reported unshifted. -/
theorem weekend_shift_reported_date (r : Record) (t : Today) (days : Int)
    (nm ds : String)
    (h : processRecord r t days = .ok (some (nm, ds))) :
    ∃ bv bd bm yb nb,
      r.birthday = some bv
      ∧ parseBirthday bv.value = some (bd, bm, yb)
      ∧ nextOcc bm bd t = .ok nb
      ∧ nm = r.name
      ∧ ds = fmtDate (shiftWeekend nb)
      ∧ (weekdayD nb = 5 → shiftWeekend nb = addDays nb 2)
      ∧ (weekdayD nb = 6 → shiftWeekend nb = addDays nb 1)
      ∧ (weekdayD nb < 5 → shiftWeekend nb = nb) := by
  unfold processRecord at h
  split at h
  · exact Option.noConfusion (Except.ok.inj h)
  · rename_i bv hb
    split at h
    · exact Except.noConfusion h
    · exact Option.noConfusion (Except.ok.inj h)
    · rename_i n hd
      split at h
      · rename_i hle
        split at h
        · exact Except.noConfusion h
        · rename_i bd bm yb hp
          split at h
          · exact Except.noConfusion h
          · rename_i nb ho
            have h1 := Option.some_inj.mp (Except.ok.inj h)
            have hnm : nm = r.name := (congrArg Prod.fst h1).symm
            have hds : ds = fmtDate (shiftWeekend nb) :=
              (congrArg Prod.snd h1).symm
            refine ⟨bv, bd, bm, yb, nb, hb, hp, ho, hnm, hds, ?_, ?_, ?_⟩
            · intro h5
              simp [shiftWeekend, h5]
            · intro h6
              simp [shiftWeekend, h6]
            · intro hlt
              have h5 : ¬ (weekdayD nb = 5) := by omega
              have h6 : ¬ (weekdayD nb = 6) := by omega
              simp [shiftWeekend, h5, h6]
      · rename_i hle
        exact Option.noConfusion (Except.ok.inj h)

/-- Witness for C2: the record with birthday `01.06.1990` seen from
    2024-05-30 — the occurrence 2024-06-01 is a Saturday (`weekday 5`)
    and is reported as 2024-06-03, formatted `03.06.2024`. -/
theorem weekend_shift_reported_date_witness :
    ∃ bv bd bm yb nb,
      ({ name := "alice", phones := [], birthday := some ⟨"01.06.1990"⟩ } : Record).birthday = some bv
      ∧ parseBirthday bv.value = some (bd, bm, yb)
      ∧ nextOcc bm bd ⟨⟨2024, 5, 30⟩, 0⟩ = .ok nb
      ∧ "alice" = ({ name := "alice", phones := [], birthday := some ⟨"01.06.1990"⟩ } : Record).name
      ∧ "03.06.2024" = fmtDate (shiftWeekend nb)
      ∧ (weekdayD nb = 5 → shiftWeekend nb = addDays nb 2)
      ∧ (weekdayD nb = 6 → shiftWeekend nb = addDays nb 1)
      ∧ (weekdayD nb < 5 → shiftWeekend nb = nb) :=
  weekend_shift_reported_date
    { name := "alice", phones := [], birthday := some ⟨"01.06.1990"⟩ }
    ⟨⟨2024, 5, 30⟩, 0⟩ 7 "alice" "03.06.2024" rfl

/-! ## C8: the `input_error` boundary -/

theorem inputError_of_error (res : PyR String × Book) (e : PyErr)
    (h : res.1 = .error e) : inputError res = (pyStr e, res.2) := by
  obtain ⟨r, b⟩ := res
  have h' : r = .error e := h
  subst h'
  rfl

/-- C8: every exception a handler raises — `ValueError` (phone or
    birthday validation, edit-phone not-found, argument unpacking) or
    `IndexError` (missing argument) — is caught at the `input_error`
    boundary and turned into the error's description string, the book
    mutations already performed being kept; `process_command` returns
    `True` for every handler command, so the command loop continues
    after any handler failure.  The closing conjuncts exhibit one
    concrete conversion of each error kind. -/
theorem handler_errors_become_messages :
    (∀ args book e, (addContact args book).1 = .error e →
       inputError (addContact args book) = (pyStr e, (addContact args book).2))
    ∧ (∀ args book e, (changeContact args book).1 = .error e →
       inputError (changeContact args book)
         = (pyStr e, (changeContact args book).2))
    ∧ (∀ args book e, (showPhone args book).1 = .error e →
       inputError (showPhone args book) = (pyStr e, (showPhone args book).2))
    ∧ (∀ args book e, (addBirthdayCmd args book).1 = .error e →
       inputError (addBirthdayCmd args book)
         = (pyStr e, (addBirthdayCmd args book).2))
    ∧ (∀ args book e, (showBirthdayCmd args book).1 = .error e →
       inputError (showBirthdayCmd args book)
         = (pyStr e, (showBirthdayCmd args book).2))
    ∧ (∀ args book t e, (birthdaysCmd args book t).1 = .error e →
       inputError (birthdaysCmd args book t)
         = (pyStr e, (birthdaysCmd args book t).2))
    ∧ (∀ (args : String) (book : Book) (t : Today) (cmd : String),
       cmd ∈ (["add", "change", "phone", "add-birthday", "show-birthday",
         "birthdays"] : List String) → (processCommand cmd args book t).2 = true)
    ∧ inputError (addContact ["alice", "12"] [])
        = (phoneErrMsg, [("alice", mkRecord "alice")])
    ∧ inputError (addContact ["alice"] [])
        = ("not enough values to unpack (expected at least 2, got 1)", [])
    ∧ inputError (showPhone [] []) = ("list index out of range", [])
    ∧ inputError (changeContact ["alice", "9999999999", "0000000000"]
        [("alice", { name := "alice", phones := ["1111111111"], birthday := none })])
        = (notFoundMsg,
           [("alice", { name := "alice", phones := ["1111111111"], birthday := none })]) := by
  refine ⟨fun args book e h => inputError_of_error _ e h,
    fun args book e h => inputError_of_error _ e h,
    fun args book e h => inputError_of_error _ e h,
    fun args book e h => inputError_of_error _ e h,
    fun args book e h => inputError_of_error _ e h,
    fun args book t e h => inputError_of_error _ e h,
    ?_, rfl, rfl, rfl, rfl⟩
  intro args book t cmd hcmd
  fin_cases hcmd <;> rfl

/-- Witness for C8: the conversion conjuncts applied at a concrete
    failing input — an invalid phone in `add` leaves the fresh record
    in the book and returns the validation message. -/
theorem handler_errors_become_messages_witness :
    inputError (addContact ["bob", "xyz"] [])
      = (phoneErrMsg, [("bob", mkRecord "bob")]) :=
  handler_errors_become_messages.1 ["bob", "xyz"] []
    (.valueError phoneErrMsg) rfl

/-! ## C9: keys equal record names -/

theorem bookInv_dictInsert (b : Book) (k : String) (v : Record)
    (hb : bookInv b) (hv : v.name = k) : bookInv (dictInsert b k v) := by
  induction b with
  | nil =>
    intro p hp
    simp only [dictInsert, List.mem_singleton] at hp
    subst hp
    exact hv
  | cons q rest ih =>
    obtain ⟨k', v'⟩ := q
    have hbtail : bookInv rest := fun p hp => hb p (List.mem_cons_of_mem _ hp)
    by_cases hk : k' = k
    · subst hk
      unfold dictInsert
      rw [if_pos rfl]
      intro p hp
      rcases List.mem_cons.mp hp with hp | hp
      · subst hp
        exact hv
      · exact hb p (List.mem_cons_of_mem _ hp)
    · unfold dictInsert
      rw [if_neg hk]
      intro p hp
      rcases List.mem_cons.mp hp with hp | hp
      · subst hp
        exact hb (k', v') (List.mem_cons_self _ _)
      · exact ih hbtail p hp

theorem bookInv_addRecord (b : Book) (r : Record) (hb : bookInv b) :
    bookInv (addRecord b r) :=
  bookInv_dictInsert b r.name r hb rfl

theorem bookInv_addContact (args : List String) (b : Book) (hb : bookInv b) :
    bookInv (inputError (addContact args b)).2 := by
  unfold addContact
  repeat' split
  all_goals
    first
      | exact hb
      | exact bookInv_addRecord _ _ hb
      | exact bookInv_addRecord _ _ (bookInv_addRecord _ _ hb)

theorem bookInv_changeContact (args : List String) (b : Book) (hb : bookInv b) :
    bookInv (inputError (changeContact args b)).2 := by
  unfold changeContact
  repeat' split
  all_goals
    first
      | exact hb
      | exact bookInv_addRecord _ _ hb

theorem bookInv_showPhone (args : List String) (b : Book) (hb : bookInv b) :
    bookInv (inputError (showPhone args b)).2 := by
  unfold showPhone
  repeat' split
  all_goals exact hb

theorem bookInv_addBirthdayCmd (args : List String) (b : Book) (hb : bookInv b) :
    bookInv (inputError (addBirthdayCmd args b)).2 := by
  unfold addBirthdayCmd
  repeat' split
  all_goals
    first
      | exact hb
      | exact bookInv_addRecord _ _ hb

theorem bookInv_showBirthdayCmd (args : List String) (b : Book) (hb : bookInv b) :
    bookInv (inputError (showBirthdayCmd args b)).2 := by
  unfold showBirthdayCmd
  repeat' split
  all_goals exact hb

theorem bookInv_birthdaysCmd (args : List String) (b : Book) (t : Today)
    (hb : bookInv b) : bookInv (inputError (birthdaysCmd args b t)).2 := by
  unfold birthdaysCmd
  repeat' split
  all_goals exact hb

/-- C9: in every address book reachable from the empty book through
    `add_record`, `find` (which does not mutate) and the command
    handlers, every key of the mapping equals the `name` stored in the
    record it maps to — `add_record` always keys by `record.name.value`
    and no operation rewrites a stored record's name. -/
theorem reachable_book_keys_match_names (b : Book) (h : Reach b) :
    bookInv b := by
  induction h with
  | empty => intro p hp; cases hp
  | addRec r _ ih => exact bookInv_addRecord _ r ih
  | addC args _ ih => exact bookInv_addContact args _ ih
  | changeC args _ ih => exact bookInv_changeContact args _ ih
  | showP args _ ih => exact bookInv_showPhone args _ ih
  | addB args _ ih => exact bookInv_addBirthdayCmd args _ ih
  | showB args _ ih => exact bookInv_showBirthdayCmd args _ ih
  | bdays args t _ ih => exact bookInv_birthdaysCmd args _ t ih

/-- Witness for C9: the invariant holds of a concrete reachable book
    (empty book, `add_record`, then an `add` handler call). -/
theorem reachable_book_keys_match_names_witness :
    bookInv (inputError (addContact ["bob", "1234567890"]
      (addRecord [] (mkRecord "alice")))).2 :=
  reachable_book_keys_match_names _
    (Reach.addC ["bob", "1234567890"]
      (Reach.addRec (mkRecord "alice") Reach.empty))

end Assistant
